import Mathlib

/-!
Verification of the Call-Recording FeatureMart pipeline.

Shallow embedding of `src/fetch_recordings.py` and `src/Transcription.py`:
pure Python string manipulation is modelled over character lists, HTTP
transport is modelled as an oracle delivering one `Except`-valued response
per request, the filesystem state of an artifact is its byte list, and the
external audio codec (pydub) is an abstract decode/slice/encode triple.
The batch orchestrator and the output reconciler are modelled from the
spec, since those scripts are not part of the two sources embedded here.
-/

namespace FeatureMart

/-! ### Python string primitives (modelled over `List Char`) -/

/-- Characters removed by Python's `str.strip()` (ASCII whitespace). -/
def isPySpace (c : Char) : Bool :=
  c = ' ' || c = '\t' || c = '\n' || c = '\r' || c = '\x0b' || c = '\x0c'

/-- `str.strip()` on a character list: drop leading and trailing whitespace. -/
def pyStripList (l : List Char) : List Char :=
  ((l.dropWhile isPySpace).reverse.dropWhile isPySpace).reverse

/-- `str.strip()`. -/
def pyStrip (s : String) : String := String.mk (pyStripList s.data)

/-- `str.lower()` (ASCII model). -/
def pyLower (s : String) : String := String.mk (s.data.map Char.toLower)

/-- Python's `needle in hay` substring test. -/
def strContainsSub (hay needle : String) : Bool :=
  hay.data.tails.any (fun t => needle.data.isPrefixOf t)

/-- Split a character list on a separator character, Python `str.split(sep)`. -/
def splitOnChar (sep : Char) : List Char → List (List Char)
  | [] => [[]]
  | c :: rest =>
    let r := splitOnChar sep rest
    if c = sep then [] :: r
    else
      match r with
      | [] => [[c]]
      | h :: t => (c :: h) :: t

/-- Join character lists with a separator character, `sep.join(parts)`. -/
def joinWithChar (sep : Char) : List (List Char) → List Char
  | [] => []
  | [l] => l
  | l :: rest => l ++ sep :: joinWithChar sep rest

/-- First line of a message, `str.split("\n")[0]`. -/
def firstLine (s : String) : String :=
  String.mk ((splitOnChar '\n' s.data).headD s.data)

/-- The truncated crop-failure log message, `str(e).split("\n")[0][:120]`. -/
def truncErr (e : String) : String := String.mk ((firstLine e).data.take 120)

/-- Value of a digit string, most significant first (no validity check). -/
def digitsVal (l : List Char) : Nat :=
  l.foldl (fun acc c => acc * 10 + (c.toNat - 48)) 0

/-- Parse a non-empty all-digit character list, else fail. -/
def digitsToNat? (l : List Char) : Option Nat :=
  if l ≠ [] ∧ l.all Char.isDigit then some (digitsVal l) else none

/-- Python `int(s)`: strip, optional sign, decimal digits; `None` on `ValueError`. -/
def pyInt (s : String) : Option Int :=
  match pyStripList s.data with
  | '-' :: rest => (digitsToNat? rest).map (fun n => -(n : Int))
  | '+' :: rest => (digitsToNat? rest).map (fun n => (n : Int))
  | l => (digitsToNat? l).map (fun n => (n : Int))

/-- Unsigned decimal literal (digits with at most one dot) as a rational. -/
def parseUnsignedDec? (l : List Char) : Option ℚ :=
  match splitOnChar '.' l with
  | [ip] => (digitsToNat? ip).map (fun n => (n : ℚ))
  | [ip, fp] =>
    if (ip.all Char.isDigit && fp.all Char.isDigit) && (ip ≠ [] || fp ≠ []) then
      some ((digitsVal (ip ++ fp) : ℚ) / ((10 : ℚ) ^ fp.length))
    else none
  | _ => none

/-- Python `float(s)` restricted to finite decimal literals; `None` on `ValueError`. -/
def pyFloat (s : String) : Option ℚ :=
  match pyStripList s.data with
  | '-' :: rest => (parseUnsignedDec? rest).map (fun q => -q)
  | '+' :: rest => parseUnsignedDec? rest
  | l => parseUnsignedDec? l

/-- Python `int(f)` on a float value: truncation toward zero. -/
def pyIntOfRat (q : ℚ) : Int := if q < 0 then -(Rat.floor (-q)) else Rat.floor q

/-! ### URL query parsing (`urllib.parse.urlparse` / `parse_qs`) -/

/-- Hexadecimal digit value, if any. -/
def hexVal? (c : Char) : Option Nat :=
  if '0' ≤ c ∧ c ≤ '9' then some (c.toNat - 48)
  else if 'a' ≤ c ∧ c ≤ 'f' then some (c.toNat - 87)
  else if 'A' ≤ c ∧ c ≤ 'F' then some (c.toNat - 55)
  else none

/-- Percent-decoding of an ASCII query component (`urllib.parse.unquote`). -/
def percentDecode : List Char → List Char
  | [] => []
  | '%' :: a :: b :: rest =>
    match hexVal? a, hexVal? b with
    | some x, some y => Char.ofNat (16 * x + y) :: percentDecode rest
    | _, _ => '%' :: percentDecode (a :: b :: rest)
  | c :: rest => c :: percentDecode rest

/-- `urllib.parse.unquote_plus`: plus-to-space, then percent-decoding. -/
def unquotePlus (l : List Char) : List Char :=
  percentDecode (l.map (fun c => if c = '+' then ' ' else c))

/-- The `query` component of `urlparse`: after the first `?`, before any `#`. -/
def urlQueryL (link : List Char) : List Char :=
  let noFrag := (splitOnChar '#' link).headD []
  match splitOnChar '?' noFrag with
  | [] => []
  | [_] => []
  | _ :: rest => joinWithChar '?' rest

/-- `urllib.parse.parse_qsl` with default arguments: split on `&`, drop empty
chunks and chunks without `=`, drop blank values, unquote names and values. -/
def parseQsL (q : List Char) : List (List Char × List Char) :=
  (splitOnChar '&' q).filterMap (fun nv =>
    if nv = [] then none
    else
      match splitOnChar '=' nv with
      | [] => none
      | [_] => none
      | n :: rest =>
        let v := joinWithChar '=' rest
        if v = [] then none else some (unquotePlus n, unquotePlus v))

/-- `parse_qs(q).get(k)`: all values bound to key `k`, in order. -/
def qsGetL (pairs : List (List Char × List Char)) (k : List Char) : List (List Char) :=
  pairs.filterMap (fun p => if p.1 = k then some p.2 else none)

/-! ### Cell values of a tabular row (pandas cell after `read_excel`/`read_csv`) -/

/-- A cell value as seen by the scripts: `None`, float `NaN`, a string, or an
integer. -/
inductive PyCell where
  | pynone
  | pynan
  | pystr (s : String)
  | pyint (n : Int)
deriving DecidableEq

/-- `str(value)` for the cell shapes of the model. -/
def pyStrOfCell : PyCell → String
  | .pynone => "None"
  | .pynan => "nan"
  | .pystr s => s
  | .pyint n => toString n

/-! ### `fetch_recordings.recording_id_from_link` and the main-loop row step -/

/-- `recording_id_from_link` of `src/fetch_recordings.py`: falsy or non-string
input gives `None`; otherwise the first `id` query-parameter value, stripped,
when that value is truthy. -/
def recording_id_from_link (c : PyCell) : Option String :=
  match c with
  | .pystr s =>
    if s = "" then none
    else if pyStripList s.data = [] then none
    else
      match qsGetL (parseQsL (urlQueryL (pyStripList s.data))) ['i', 'd'] with
      | [] => none
      | v :: _ => if v = [] then none else some (String.mk (pyStripList v))
  | _ => none

/-- `(row["recording_link"] or "").strip()`: falsy cells become `""`, string
cells are stripped, and a truthy non-string cell raises `AttributeError`. -/
def pyOrEmptyStrip : PyCell → Except String String
  | .pystr s => .ok (pyStrip s)
  | .pynone => .ok ""
  | .pynan => .error "AttributeError: float object has no attribute strip"
  | .pyint n =>
    if n = 0 then .ok ""
    else .error "AttributeError: int object has no attribute strip"

/-- Outcome of the recording-id part of one iteration of `main`'s loop in
`src/fetch_recordings.py`. -/
inductive RowOutcome where
  | skippedNoId
  | processed (recordingId : String)
deriving DecidableEq

/-- One iteration of the loop: strip the link cell, extract the recording id,
and `continue` when the id is falsy. -/
def fetch_row_link_step (cell : PyCell) : Except String RowOutcome :=
  match pyOrEmptyStrip cell with
  | .error e => .error e
  | .ok link =>
    match recording_id_from_link (.pystr link) with
    | none => .ok .skippedNoId
    | some rid => if rid = "" then .ok .skippedNoId else .ok (.processed rid)

/-- The whole loop over the filtered rows; an uncaught exception aborts it. -/
def fetch_rows_outcomes : List PyCell → Except String (List RowOutcome)
  | [] => .ok []
  | c :: rest =>
    match fetch_row_link_step c with
    | .error e => .error e
    | .ok o =>
      match fetch_rows_outcomes rest with
      | .error e => .error e
      | .ok os => .ok (o :: os)

/-! ### HTTP transport and the two download functions -/

/-- An HTTP response as the scripts observe it: final status code, declared
content type, and the streamed body bytes. -/
structure HttpResponse where
  status : Nat
  contentType : Option String
  body : List Nat
deriving DecidableEq

/-- `requests.Response.raise_for_status()` raises exactly for 4xx and 5xx. -/
def httpRaises (status : Nat) : Bool := 400 ≤ status && status < 600

/-- `download_recording` of `src/Transcription.py`. The transport oracle maps
the index of each HTTP request the function would make to its outcome; an
`Except.error` is an exception raised during the request or transfer. Returns
the `(ok, message)` pair together with the artifact bytes after the call. -/
def download_recording (transport : Nat → Except String HttpResponse)
    (file : List Nat) : (Bool × String) × List Nat :=
  match transport 0 with
  | .error e => ((false, e), file)
  | .ok r =>
    if httpRaises r.status then
      ((false, "HTTPError: status " ++ toString r.status), file)
    else
      let ct := pyLower (r.contentType.getD "")
      if strContainsSub ct "text/html" || strContainsSub ct "application/json" then
        ((false, "Unexpected content-type: " ++ (if ct = "" then "unknown" else ct)
          ++ " (auth required?)"), file)
      else ((true, ""), r.body)

/-- `download_audio` of `src/fetch_recordings.py`: same transport model, no
content-type inspection, boolean result. -/
def download_audio (transport : Nat → Except String HttpResponse)
    (file : List Nat) : Bool × List Nat :=
  match transport 0 with
  | .error _ => (false, file)
  | .ok r =>
    if httpRaises r.status then (false, file)
    else (true, r.body)

/-! ### JSON values and `get_recording_public_url` -/

/-- A parsed JSON value as Python would hold it. -/
inductive PyJson where
  | null
  | boolean (b : Bool)
  | num (q : ℚ)
  | str (s : String)
  | arr (elems : List PyJson)
  | obj (fields : List (String × PyJson))

/-- Python truthiness of a JSON value. -/
def PyJson.truthy : PyJson → Bool
  | .null => false
  | .boolean b => b
  | .num q => if q = 0 then false else true
  | .str s => if s = "" then false else true
  | .arr l => !l.isEmpty
  | .obj l => !l.isEmpty

/-- `dict.get(k)` on a JSON object. -/
def jGet (fields : List (String × PyJson)) (k : String) : Option PyJson :=
  (fields.find? (fun p => p.1 == k)).map (fun p => p.2)

/-- A locator API response: status code and parsed JSON body (`none` when
`r.json()` raises). -/
structure ApiResponse where
  status : Nat
  body : Option PyJson

/-- The response-handling part of `get_recording_public_url`: pull `data`,
return it stripped when it is a string with a truthy strip; when it is a dict
with a truthy `url`, strip that field — a truthy non-string `url` raises
`AttributeError`, which the function catches, giving `None`. -/
def extract_public_link (j : PyJson) : Option String :=
  match j with
  | .obj fields =>
    match jGet fields "data" with
    | some payload =>
      match payload with
      | .str s => if pyStrip s = "" then none else some (pyStrip s)
      | .obj d =>
        match jGet d "url" with
        | some v =>
          if v.truthy then
            match v with
            | .str u => some (pyStrip u)
            | _ => none
          else none
        | none => none
      | _ => none
    | none => none
  | _ => none

/-- `get_recording_public_url` of `src/fetch_recordings.py`: one GET request;
every exception (transport, `raise_for_status`, JSON decoding, attribute
errors) is caught and yields `None`. -/
def get_recording_public_url (transport : Nat → Except String ApiResponse) :
    Option String :=
  match transport 0 with
  | .error _ => none
  | .ok r =>
    if httpRaises r.status then none
    else
      match r.body with
      | none => none
      | some j => extract_public_link j

/-! ### `_detect_audio_format` (format sniffer) -/

/-- `audio_path.suffix.lower().lstrip(".") or "mp3"`. -/
def extFallback (suffix : String) : String :=
  let e := (pyLower suffix).data.dropWhile (fun c => c = '.')
  if e = [] then "mp3" else String.mk e

/-- `header[:4] == b"RIFF" and header[8:12] == b"WAVE"`. -/
def riffWave (header : List Nat) : Bool :=
  header.take 4 == [0x52, 0x49, 0x46, 0x46] &&
    (header.drop 8).take 4 == [0x57, 0x41, 0x56, 0x45]

/-- `header[:3] == b"ID3" or (len(header) >= 2 and header[0] == 0xFF and
(header[1] & 0xE0) == 0xE0)`. -/
def id3OrSync (header : List Nat) : Bool :=
  header.take 3 == [0x49, 0x44, 0x33] ||
    (decide (2 ≤ header.length) && header.getD 0 0 == 0xFF &&
      Nat.land (header.getD 1 0) 0xE0 == 0xE0)

/-- `header[:4] == b"fLaC"`. -/
def flacSig (header : List Nat) : Bool :=
  header.take 4 == [0x66, 0x4C, 0x61, 0x43]

/-- `_detect_audio_format` of `src/fetch_recordings.py`: sniff the first 12
bytes (`none` models the read raising); fall back to the extension, then
`"mp3"`, only when no signature matches. -/
def detect_audio_format (file? : Option (List Nat)) (suffix : String) : String :=
  match file? with
  | some file =>
    let header := file.take 12
    if riffWave header then "wav"
    else if id3OrSync header then "mp3"
    else if flacSig header then "flac"
    else extFallback suffix
  | none => extFallback suffix

/-! ### `crop_audio_by_timestamps` (temporal cropper) -/

/-- Result of a crop attempt: the returned boolean, the artifact bytes after
the call, and the warning message logged on a caught codec failure. -/
structure CropResult where
  cropped : Bool
  file : List Nat
  warn : Option String
deriving DecidableEq

/-- `crop_audio_by_timestamps` of `src/fetch_recordings.py`. The pydub codec
is abstract: `decode` is `AudioSegment.from_file(path, format)`, `slice` is
`audio[start_ms:end_ms]`, `encode` is `cropped.export(path, format)` (the
export either produces the new artifact bytes or raises). Timestamps are
rational epoch seconds; missing timestamps and ill-formed windows skip the
crop before any codec call. -/
def crop_audio_by_timestamps {Audio : Type}
    (decode : String → List Nat → Except String Audio)
    (slice : Audio → Int → Int → Audio)
    (encode : Audio → String → Except String (List Nat))
    (file : List Nat) (suffix : String)
    (call_start customer_pickup call_end : Option ℚ) : CropResult :=
  match call_start, customer_pickup, call_end with
  | some cs, some cp, some ce =>
    let start_sec := cp - cs
    let end_sec := ce - cs
    if start_sec < 0 ∨ end_sec ≤ start_sec then ⟨false, file, none⟩
    else
      let start_ms := pyIntOfRat (start_sec * 1000)
      let end_ms := pyIntOfRat (end_sec * 1000)
      let fmt := detect_audio_format (some file) suffix
      match decode fmt file with
      | .error e => ⟨false, file, some (truncErr e)⟩
      | .ok audio =>
        match encode (slice audio start_ms end_ms) (extFallback suffix) with
        | .error e => ⟨false, file, some (truncErr e)⟩
        | .ok newBytes => ⟨true, newBytes, none⟩
  | _, _, _ => ⟨false, file, none⟩

/-! ### `_talk_time_duration_to_seconds` and the talk-time filter -/

/-- The string branch of `_talk_time_duration_to_seconds`: an `H:M:S` or
`M:S` split with integer parts, otherwise `float(s)`; conversion errors give
`0.0`. -/
def talkStr (raw : String) : ℚ :=
  if pyStripList raw.data = [] then 0
  else
    match splitOnChar ':' (pyStripList raw.data) with
    | [p1, p2, p3] =>
      match pyInt (String.mk p1), pyInt (String.mk p2), pyInt (String.mk p3) with
      | some h, some m, some sec => (h : ℚ) * 3600 + (m : ℚ) * 60 + (sec : ℚ)
      | _, _, _ => 0
    | [p1, p2] =>
      match pyInt (String.mk p1), pyInt (String.mk p2) with
      | some m, some sec => (m : ℚ) * 60 + (sec : ℚ)
      | _, _ => 0
    | _ =>
      match pyFloat (String.mk (pyStripList raw.data)) with
      | some q => q
      | none => 0

/-- `_talk_time_duration_to_seconds` of `src/fetch_recordings.py`. -/
def talk_time_duration_to_seconds : PyCell → ℚ
  | .pynone => 0
  | .pynan => 0
  | .pystr s => talkStr s
  | .pyint n => talkStr (toString n)

/-- The strict talk-time filter of `main`:
`rows[rows["_talk_seconds"] > MIN_TALK_TIME_SECONDS]`. -/
def filterByTalkTime (rows : List PyCell) (threshold : ℚ) : List PyCell :=
  rows.filter (fun v => decide (threshold < talk_time_duration_to_seconds v))

/-! ### Batch job orchestrator (chunking), modelled from the spec -/

/-- Fuel-indexed chunking helper; the fuel bounds the number of chunks. -/
def chunkedFuel {α : Type} : Nat → List α → Nat → List (List α)
  | 0, _, _ => []
  | _ + 1, [], _ => []
  | fuel + 1, l, b => l.take b :: chunkedFuel fuel (l.drop b) b

/-- Modelled from the spec: the Batch Job Orchestrator's partitioning step
(spec section 4.5), which is in the repository's batch script, not under
`src/`: "Partitions input into contiguous chunks of ≤ batchSize (last chunk
possibly smaller); chunk boundaries follow input order". -/
def chunked {α : Type} (l : List α) (b : Nat) : List (List α) :=
  chunkedFuel l.length l b

/-! ### Output reconciler, modelled from the spec -/

/-- A file name in the output directory, split as base plus final extension. -/
structure OutName where
  base : String
  ext : String
deriving DecidableEq

/-- The rendered file name: `base.ext`, or just `base` when `ext` is empty. -/
def fullName (a : OutName) : String :=
  if a.ext = "" then a.base else a.base ++ "." ++ a.ext

/-- The raw per-member result file `<original_filename>.json` left by the
remote client for artifact `a` (spec section 6). -/
def origName (a : OutName) : OutName := ⟨fullName a, "json"⟩

/-- The canonical transcript text file `<stem>.txt`. -/
def txtName (a : OutName) : OutName := ⟨a.base, "txt"⟩

/-- The canonical JSON file `<stem>.json`. -/
def canonName (a : OutName) : OutName := ⟨a.base, "json"⟩

/-- The output directory as a partial map from file names to contents. -/
def FS : Type := OutName → Option String

/-- Write (create or overwrite) a file. -/
def fsWrite (fs : FS) (n : OutName) (c : String) : FS :=
  fun m => if m = n then some c else fs m

/-- Delete a file. -/
def fsRemove (fs : FS) (n : OutName) : FS :=
  fun m => if m = n then none else fs m

/-- Modelled from the spec: one reconciliation step (spec section 4.6), which
is in the repository's batch script, not under `src/`: look up the artifact's
result file (absence is tolerated), write `<stem>.txt` and the canonical
`<stem>.json`, and delete the original result file when its path differs from
the canonical one. `extractTx` extracts the transcript text from the payload. -/
def reconcileStep (extractTx : String → String) (fs : FS) (a : OutName) : FS :=
  match fs (origName a) with
  | none => fs
  | some payload =>
    let fs1 := fsWrite fs (txtName a) (extractTx payload)
    let fs2 := fsWrite fs1 (canonName a) payload
    if origName a = canonName a then fs2 else fsRemove fs2 (origName a)

/-- Modelled from the spec: reconciliation of a completed run over all chunk
artifacts, in input order. -/
def reconcile (extractTx : String → String) : List OutName → FS → FS
  | [], fs => fs
  | a :: rest, fs => reconcile extractTx rest (reconcileStep extractTx fs a)

/-! ## Helper lemmas -/

theorem dropWhile_eq_self_of_head {α : Type} (p : α → Bool) (l : List α)
    (h : ∀ a, l.head? = some a → p a = false) : l.dropWhile p = l := by
  cases l with
  | nil => rfl
  | cons a t =>
    have ha : p a = false := h a rfl
    simp [List.dropWhile_cons, ha]

theorem dropWhile_idem {α : Type} (p : α → Bool) (l : List α) :
    (l.dropWhile p).dropWhile p = l.dropWhile p := by
  apply dropWhile_eq_self_of_head
  intro a ha
  have hd := List.head?_dropWhile_not p l
  rw [ha] at hd
  exact hd

theorem pyStripList_idem (l : List Char) : pyStripList (pyStripList l) = pyStripList l := by
  unfold pyStripList
  have hdecomp : (l.dropWhile isPySpace).reverse
      = (l.dropWhile isPySpace).reverse.takeWhile isPySpace
        ++ (l.dropWhile isPySpace).reverse.dropWhile isPySpace :=
    (List.takeWhile_append_dropWhile isPySpace _).symm
  have hA : ((l.dropWhile isPySpace).reverse.dropWhile isPySpace).reverse.dropWhile isPySpace
      = ((l.dropWhile isPySpace).reverse.dropWhile isPySpace).reverse := by
    apply dropWhile_eq_self_of_head
    intro a ha
    -- the head of the doubly-trimmed list is the head of the left-trimmed list
    cases hrev : ((l.dropWhile isPySpace).reverse.dropWhile isPySpace).reverse with
    | nil => rw [hrev] at ha; cases ha
    | cons b t =>
      rw [hrev] at ha
      have hb : b = a := by
        have := Option.some.inj ha
        simpa using this
      subst hb
      have hmem : l.dropWhile isPySpace
          = b :: (t ++ ((l.dropWhile isPySpace).reverse.takeWhile isPySpace).reverse) := by
        conv_lhs => rw [← List.reverse_reverse (l.dropWhile isPySpace), hdecomp]
        rw [List.reverse_append, hrev]
        simp
      have hd := List.head?_dropWhile_not isPySpace l
      rw [hmem] at hd
      exact hd
  rw [hA, List.reverse_reverse, dropWhile_idem]

theorem pyStrip_idem (s : String) : pyStrip (pyStrip s) = pyStrip s := by
  simp [pyStrip, pyStripList_idem]

theorem ceil_div_step (n b : Nat) (hb : 0 < b) (hn : 0 < n) :
    (n - b + b - 1) / b + 1 = (n + b - 1) / b := by
  have h5 : n + b - 1 = (n - 1) + b := by omega
  rw [h5, Nat.add_div_right _ hb]
  rcases le_or_lt n b with hle | hlt
  · have e1 : n - b = 0 := by omega
    have e2 : (0 + b - 1) / b = 0 := Nat.div_eq_of_lt (by omega)
    have e3 : (n - 1) / b = 0 := Nat.div_eq_of_lt (by omega)
    rw [e1, e2, e3]
  · have e4 : n - b + b - 1 = (n - 1 - b) + b := by omega
    have e6 : n - 1 = (n - 1 - b) + b := by omega
    rw [e4, Nat.add_div_right _ hb]
    conv_rhs => rw [e6, Nat.add_div_right _ hb]

theorem chunkedFuel_spec {α : Type} :
    ∀ (fuel : Nat) (l : List α) (b : Nat), 0 < b → l.length ≤ fuel →
      (chunkedFuel fuel l b).flatten = l ∧
      (chunkedFuel fuel l b).length = (l.length + b - 1) / b ∧
      ∀ c ∈ chunkedFuel fuel l b, c.length ≤ b := by
  intro fuel
  induction fuel with
  | zero =>
    intro l b hb hl
    have hl0 : l = [] := List.eq_nil_of_length_eq_zero (Nat.le_zero.mp hl)
    subst hl0
    refine ⟨rfl, ?_, by simp [chunkedFuel]⟩
    have : (0 + b - 1) / b = 0 := Nat.div_eq_of_lt (by omega)
    simpa [chunkedFuel] using this.symm
  | succ fuel ih =>
    intro l b hb hl
    cases l with
    | nil =>
      refine ⟨rfl, ?_, by simp [chunkedFuel]⟩
      have : (0 + b - 1) / b = 0 := Nat.div_eq_of_lt (by omega)
      simpa [chunkedFuel] using this.symm
    | cons x xs =>
      have hstep : chunkedFuel (fuel + 1) (x :: xs) b
          = (x :: xs).take b :: chunkedFuel fuel ((x :: xs).drop b) b := rfl
      simp only [List.length_cons] at hl
      have hd : ((x :: xs).drop b).length ≤ fuel := by
        simp only [List.length_drop, List.length_cons]
        omega
      obtain ⟨ihj, ihl, ihs⟩ := ih ((x :: xs).drop b) b hb hd
      refine ⟨?_, ?_, ?_⟩
      · rw [hstep, List.flatten_cons, ihj, List.take_append_drop]
      · rw [hstep, List.length_cons, ihl]
        simp only [List.length_drop, List.length_cons]
        exact ceil_div_step (xs.length + 1) b hb (by omega)
      · intro c hc
        rw [hstep] at hc
        rcases List.mem_cons.mp hc with hc | hc
        · subst hc
          simp
        · exact ihs c hc

/-! ## Claim C1: orchestrator chunking -/

/-- Claim C1: for every list of N input artifacts and every batch size B > 0,
the batch orchestrator partitions the artifacts into exactly ⌈N/B⌉ (that is,
`(N + B - 1) / B`) contiguous jobs following input order, each job with at
most B members, and every artifact belongs to exactly one job (the
concatenation of the jobs is the input list itself). -/
theorem c1_orchestrator_partitions (l : List Nat) (b : Nat) (hb : 0 < b) :
    (chunked l b).flatten = l ∧
    (chunked l b).length = (l.length + b - 1) / b ∧
    ∀ c ∈ chunked l b, c.length ≤ b :=
  chunkedFuel_spec l.length l b hb (Nat.le_refl _)

/-- Witness for C1: five artifacts with batch size two give three jobs. -/
theorem c1_orchestrator_partitions_witness :
    (chunked [10, 20, 30, 40, 50] 2).flatten = [10, 20, 30, 40, 50] ∧
    (chunked [10, 20, 30, 40, 50] 2).length = (5 + 2 - 1) / 2 :=
  ⟨(c1_orchestrator_partitions [10, 20, 30, 40, 50] 2 (by decide)).1,
   (c1_orchestrator_partitions [10, 20, 30, 40, 50] 2 (by decide)).2.1⟩

/-! ## Claim C9: transport exceptions never propagate, no retries -/

/-- Claim C9: neither the locator call nor either download operation
propagates a transport exception: every exception raised during the request
maps to the in-band failure value (`(False, message)` for
`download_recording`, `False` for `download_audio`, `None` for
`get_recording_public_url`), and each function's result depends only on the
outcome of its single (first) request — no retry is attempted. -/
theorem c9_transport_error_containment :
    (∀ (t : Nat → Except String HttpResponse) (file : List Nat) (e : String),
        t 0 = .error e → download_recording t file = ((false, e), file)) ∧
    (∀ (t : Nat → Except String HttpResponse) (file : List Nat) (e : String),
        t 0 = .error e → download_audio t file = (false, file)) ∧
    (∀ (t : Nat → Except String ApiResponse) (e : String),
        t 0 = .error e → get_recording_public_url t = none) ∧
    (∀ (t t' : Nat → Except String HttpResponse) (file : List Nat),
        t 0 = t' 0 → download_recording t file = download_recording t' file) ∧
    (∀ (t t' : Nat → Except String HttpResponse) (file : List Nat),
        t 0 = t' 0 → download_audio t file = download_audio t' file) ∧
    (∀ (t t' : Nat → Except String ApiResponse),
        t 0 = t' 0 → get_recording_public_url t = get_recording_public_url t') := by
  refine ⟨?_, ?_, ?_, ?_, ?_, ?_⟩
  · intro t file e h
    simp only [download_recording]
    rw [h]
  · intro t file e h
    simp only [download_audio]
    rw [h]
  · intro t e h
    simp only [get_recording_public_url]
    rw [h]
  · intro t t' file h
    simp only [download_recording]
    rw [h]
  · intro t t' file h
    simp only [download_audio]
    rw [h]
  · intro t t' h
    simp only [get_recording_public_url]
    rw [h]

/-- Witness for C9: a raised timeout becomes the in-band failure value of
each of the three functions. -/
theorem c9_transport_error_containment_witness :
    download_recording (fun _ => .error "timed out") [1] = ((false, "timed out"), [1]) ∧
    download_audio (fun _ => .error "connection reset") [2] = (false, [2]) ∧
    get_recording_public_url (fun _ => .error "timed out") = none :=
  ⟨c9_transport_error_containment.1 _ [1] "timed out" rfl,
   c9_transport_error_containment.2.1 _ [2] "connection reset" rfl,
   c9_transport_error_containment.2.2.1 _ "timed out" rfl⟩

/-! ## Claim C2: content-type guard on downloads -/

/-- Claim C2 counterexample: `download_audio` (the fetch script's download
path) saves the body of an HTTP 200 response whose declared content type is
`text/html`, so the content-type guard does not hold on every download path
of the program. -/
theorem c2_counterexample :
    download_audio (fun _ => .ok ⟨200, some "text/html", [1, 2, 3]⟩) [7]
      = (true, [1, 2, 3]) := by decide

/-- Claim C2 (amended): `download_recording` (the transcription script's
download path) fails without touching the artifact whenever a non-raising
response declares a content type containing `text/html` or
`application/json`; `download_audio` performs no content-type check and
saves the body of every non-raising response. -/
theorem c2_content_type_guard :
    (∀ (t : Nat → Except String HttpResponse) (file : List Nat) (r : HttpResponse),
        t 0 = .ok r → httpRaises r.status = false →
        (strContainsSub (pyLower (r.contentType.getD "")) "text/html" ||
          strContainsSub (pyLower (r.contentType.getD "")) "application/json") = true →
        (download_recording t file).1.1 = false ∧ (download_recording t file).2 = file) ∧
    (∀ (t : Nat → Except String HttpResponse) (file : List Nat) (r : HttpResponse),
        t 0 = .ok r → httpRaises r.status = false →
        download_audio t file = (true, r.body)) := by
  constructor
  · intro t file r h hs hct
    simp only [download_recording]
    rw [h]
    simp [hs, hct]
  · intro t file r h hs
    simp only [download_audio]
    rw [h]
    simp [hs]

/-- Witness for C2 (amended): an uppercase `Application/JSON` content type is
rejected by `download_recording` but saved by `download_audio`. -/
theorem c2_content_type_guard_witness :
    ((download_recording (fun _ => .ok ⟨200, some "Application/JSON", [4]⟩) [9]).1.1 = false ∧
      (download_recording (fun _ => .ok ⟨200, some "Application/JSON", [4]⟩) [9]).2 = [9]) ∧
    download_audio (fun _ => .ok ⟨200, some "Application/JSON", [4]⟩) [9] = (true, [4]) :=
  ⟨c2_content_type_guard.1 _ [9] ⟨200, some "Application/JSON", [4]⟩ rfl (by decide) (by decide),
   c2_content_type_guard.2 _ [9] ⟨200, some "Application/JSON", [4]⟩ rfl (by decide)⟩

/-! ## Claim C3: crop skips ill-formed windows untouched -/

/-- Claim C3: for every artifact and every timestamp triple in which any
timestamp is absent, or `pickup - callStart < 0`, or
`callEnd - callStart ≤ pickup - callStart`, `crop_audio_by_timestamps`
returns the skip result (`False`, no exception) and the artifact bytes are
unchanged. -/
theorem c3_crop_skips {Audio : Type}
    (decode : String → List Nat → Except String Audio)
    (slice : Audio → Int → Int → Audio)
    (encode : Audio → String → Except String (List Nat))
    (file : List Nat) (suffix : String)
    (call_start customer_pickup call_end : Option ℚ)
    (h : call_start = none ∨ customer_pickup = none ∨ call_end = none ∨
      ∃ cs cp ce, call_start = some cs ∧ customer_pickup = some cp ∧ call_end = some ce ∧
        (cp - cs < 0 ∨ ce - cs ≤ cp - cs)) :
    (crop_audio_by_timestamps decode slice encode file suffix
        call_start customer_pickup call_end).cropped = false ∧
    (crop_audio_by_timestamps decode slice encode file suffix
        call_start customer_pickup call_end).file = file := by
  rcases h with h | h | h | ⟨cs, cp, ce, h1, h2, h3, hr⟩
  · subst h
    cases customer_pickup <;> cases call_end <;>
      simp [crop_audio_by_timestamps]
  · subst h
    cases call_start <;> cases call_end <;>
      simp [crop_audio_by_timestamps]
  · subst h
    cases call_start <;> cases customer_pickup <;>
      simp [crop_audio_by_timestamps]
  · subst h1; subst h2; subst h3
    simp only [crop_audio_by_timestamps]
    rw [if_pos hr]
    exact ⟨rfl, rfl⟩

/-- Witness for C3: a pickup one second before call start skips the crop and
leaves the bytes `[1, 2]` in place. -/
theorem c3_crop_skips_witness :
    (crop_audio_by_timestamps (fun _ _ => (Except.ok () : Except String Unit))
        (fun a _ _ => a) (fun _ _ => Except.ok [9]) [1, 2] ".mp3"
        (some 0) (some (-1)) (some 5)).cropped = false ∧
    (crop_audio_by_timestamps (fun _ _ => (Except.ok () : Except String Unit))
        (fun a _ _ => a) (fun _ _ => Except.ok [9]) [1, 2] ".mp3"
        (some 0) (some (-1)) (some 5)).file = [1, 2] :=
  c3_crop_skips _ _ _ [1, 2] ".mp3" _ _ _
    (Or.inr (Or.inr (Or.inr ⟨0, -1, 5, rfl, rfl, rfl, Or.inl (by norm_num)⟩)))

/-! ## Claim C7: codec failures during cropping are contained -/

/-- Claim C7: for every decode or encode failure during cropping (with
present timestamps and a well-formed window), `crop_audio_by_timestamps`
catches the exception, returns the non-error result `False` together with a
truncated warning message (first line, at most 120 characters), and the
artifact bytes are unchanged. -/
theorem c7_crop_codec_failure {Audio : Type}
    (decode : String → List Nat → Except String Audio)
    (slice : Audio → Int → Int → Audio)
    (encode : Audio → String → Except String (List Nat))
    (file : List Nat) (suffix : String) (cs cp ce : ℚ) (e : String)
    (hr : ¬(cp - cs < 0 ∨ ce - cs ≤ cp - cs)) :
    (decode (detect_audio_format (some file) suffix) file = .error e →
      crop_audio_by_timestamps decode slice encode file suffix
          (some cs) (some cp) (some ce)
        = ⟨false, file, some (truncErr e)⟩) ∧
    (∀ a : Audio, decode (detect_audio_format (some file) suffix) file = .ok a →
      encode (slice a (pyIntOfRat ((cp - cs) * 1000)) (pyIntOfRat ((ce - cs) * 1000)))
          (extFallback suffix) = .error e →
      crop_audio_by_timestamps decode slice encode file suffix
          (some cs) (some cp) (some ce)
        = ⟨false, file, some (truncErr e)⟩) := by
  constructor
  · intro hd
    simp only [crop_audio_by_timestamps]
    rw [if_neg hr, hd]
  · intro a hd he
    simp only [crop_audio_by_timestamps]
    rw [if_neg hr, hd]
    simp only [he]

/-- Witness for C7: a decoder raising a two-line error leaves the bytes in
place and logs only the first line. -/
theorem c7_crop_codec_failure_witness :
    crop_audio_by_timestamps (fun _ _ => (Except.error "boom\ndetails" : Except String Unit))
        (fun a _ _ => a) (fun _ _ => Except.ok [9]) [1, 2] ".mp3"
        (some 0) (some 0) (some 1)
      = ⟨false, [1, 2], some (truncErr "boom\ndetails")⟩ :=
  (c7_crop_codec_failure _ _ _ [1, 2] ".mp3" 0 0 1 "boom\ndetails" (by norm_num)).1 rfl

/-! ## Claim C4: byte-signature format detection -/

theorem riffWave_head (h : List Nat) (hw : riffWave h = true) : h.head? = some 0x52 := by
  cases h with
  | nil => simp [riffWave] at hw
  | cons a t =>
    simp only [riffWave, List.take_succ_cons, Bool.and_eq_true, beq_iff_eq] at hw
    obtain ⟨h1, _⟩ := hw
    obtain ⟨rfl, _⟩ := List.cons_eq_cons.mp h1
    rfl

theorem id3OrSync_head (h : List Nat) (hm : id3OrSync h = true) :
    h.head? = some 0x49 ∨ h.head? = some 0xFF := by
  cases h with
  | nil => simp [id3OrSync] at hm
  | cons a t =>
    simp only [id3OrSync, List.take_succ_cons, Bool.or_eq_true, Bool.and_eq_true,
      beq_iff_eq] at hm
    rcases hm with h1 | ⟨⟨_, h2⟩, _⟩
    · obtain ⟨rfl, _⟩ := List.cons_eq_cons.mp h1
      exact Or.inl rfl
    · simp only [List.getD_cons_zero] at h2
      subst h2
      exact Or.inr rfl

theorem flacSig_head (h : List Nat) (hf : flacSig h = true) : h.head? = some 0x66 := by
  cases h with
  | nil => simp [flacSig] at hf
  | cons a t =>
    simp only [flacSig, List.take_succ_cons, beq_iff_eq] at hf
    obtain ⟨rfl, _⟩ := List.cons_eq_cons.mp hf
    rfl

theorem riffWave_eq_false_of_head (h : List Nat) (x : Nat) (hx : h.head? = some x)
    (hne : x ≠ 0x52) : riffWave h = false := by
  cases hw : riffWave h
  · rfl
  · have := riffWave_head h hw
    rw [hx] at this
    exact absurd (Option.some.inj this) hne

theorem id3OrSync_eq_false_of_head (h : List Nat) (x : Nat) (hx : h.head? = some x)
    (h1 : x ≠ 0x49) (h2 : x ≠ 0xFF) : id3OrSync h = false := by
  cases hw : id3OrSync h
  · rfl
  · rcases id3OrSync_head h hw with h3 | h3 <;> rw [hx] at h3
    · exact absurd (Option.some.inj h3) h1
    · exact absurd (Option.some.inj h3) h2

/-- Claim C4: format detection depends only on the leading bytes whenever a
signature matches — RIFF/WAVE gives `wav`, an ID3 tag or MPEG frame sync
gives `mp3`, `fLaC` gives `flac`, each for every file name suffix; only when
no signature matches (or the read raises) does detection fall back to the
extension and then to `"mp3"`. In particular a WAV payload under a `.mp3`
name is detected as `wav` (instantiate the first conjunct at `".mp3"`). -/
theorem c4_format_detection :
    (∀ (file : List Nat) (suffix : String), riffWave (file.take 12) = true →
        detect_audio_format (some file) suffix = "wav") ∧
    (∀ (file : List Nat) (suffix : String), id3OrSync (file.take 12) = true →
        detect_audio_format (some file) suffix = "mp3") ∧
    (∀ (file : List Nat) (suffix : String), flacSig (file.take 12) = true →
        detect_audio_format (some file) suffix = "flac") ∧
    (∀ (file : List Nat) (suffix : String), riffWave (file.take 12) = false →
        id3OrSync (file.take 12) = false → flacSig (file.take 12) = false →
        detect_audio_format (some file) suffix = extFallback suffix) ∧
    (∀ suffix : String, detect_audio_format none suffix = extFallback suffix) ∧
    extFallback "" = "mp3" := by
  refine ⟨?_, ?_, ?_, ?_, fun _ => rfl, by decide⟩
  · intro file suffix hw
    simp [detect_audio_format, hw]
  · intro file suffix hm
    rcases id3OrSync_head _ hm with h1 | h1 <;>
    · have hw := riffWave_eq_false_of_head _ _ h1 (by decide)
      simp [detect_audio_format, hw, hm]
  · intro file suffix hf
    have h1 := flacSig_head _ hf
    have hw := riffWave_eq_false_of_head _ _ h1 (by decide)
    have hm := id3OrSync_eq_false_of_head _ _ h1 (by decide) (by decide)
    simp [detect_audio_format, hw, hm, hf]
  · intro file suffix hw hm hf
    simp [detect_audio_format, hw, hm, hf]

/-- Witness for C4: a byte-identical WAV payload saved under a `.mp3` name is
detected as `wav`. -/
theorem c4_format_detection_witness :
    detect_audio_format
        (some [0x52, 0x49, 0x46, 0x46, 0, 0, 0, 0, 0x57, 0x41, 0x56, 0x45]) ".mp3"
      = "wav" :=
  c4_format_detection.1 _ ".mp3" (by decide)

/-! ## Claim C5: recording-id extraction and the skip-and-continue loop -/

/-- Claim C5 counterexample: for the link `?id=+` (a whitespace-only `id`
value), extraction returns `some ""` — not `None` and not a non-empty
string; and a truthy non-string link cell makes the loop's
`(row["recording_link"] or "").strip()` raise `AttributeError`, aborting the
run instead of skipping the record. -/
theorem c5_counterexample :
    recording_id_from_link (.pystr "https://example.com/play?id=+") = some "" ∧
    fetch_row_link_step (.pyint 5)
      = .error "AttributeError: int object has no attribute strip" := by
  exact ⟨by decide, rfl⟩

/-- Claim C5 (amended): for every recording link that is a string lacking an
`id` query parameter with a truthy value (including empty and blank links),
and for every non-string falsy cell, extraction returns `None` without
raising; every id extraction returns is stripped, but may be the empty
string when the parameter value is whitespace-only; the main loop skips a
record whose extracted id is `None` or empty and continues with the
remaining rows unchanged. -/
theorem c5_recording_id_extraction :
    (recording_id_from_link .pynone = none) ∧
    (recording_id_from_link .pynan = none) ∧
    (∀ n : Int, recording_id_from_link (.pyint n) = none) ∧
    (recording_id_from_link (.pystr "") = none) ∧
    (∀ s : String, pyStripList s.data = [] → recording_id_from_link (.pystr s) = none) ∧
    (∀ s : String, qsGetL (parseQsL (urlQueryL (pyStripList s.data))) ['i', 'd'] = [] →
        recording_id_from_link (.pystr s) = none) ∧
    (∀ (c : PyCell) (r : String), recording_id_from_link c = some r → pyStrip r = r) ∧
    (∀ s : String,
        (recording_id_from_link (.pystr (pyStrip s)) = none ∨
          recording_id_from_link (.pystr (pyStrip s)) = some "") →
        fetch_row_link_step (.pystr s) = .ok .skippedNoId) ∧
    (fetch_row_link_step .pynone = .ok .skippedNoId) ∧
    (∀ (cell : PyCell) (rest : List PyCell), fetch_row_link_step cell = .ok .skippedNoId →
        fetch_rows_outcomes (cell :: rest)
          = (fetch_rows_outcomes rest).map (fun os => RowOutcome.skippedNoId :: os)) := by
  refine ⟨rfl, rfl, fun _ => rfl, rfl, ?_, ?_, ?_, ?_, rfl, ?_⟩
  · intro s h
    by_cases hs : s = ""
    · subst hs; rfl
    · simp [recording_id_from_link, hs, h]
  · intro s h
    by_cases hs : s = ""
    · subst hs; rfl
    · by_cases hl : pyStripList s.data = []
      · simp [recording_id_from_link, hs, hl]
      · simp [recording_id_from_link, hs, hl, h]
  · intro c r h
    cases c with
    | pystr s =>
      simp only [recording_id_from_link] at h
      split at h
      · cases h
      · split at h
        · cases h
        · split at h
          · cases h
          · split at h
            · cases h
            · have hr := Option.some.inj h
              subst hr
              simp [pyStrip, pyStripList_idem]
    | pynone => cases h
    | pynan => cases h
    | pyint n => cases h
  · intro s h
    simp only [fetch_row_link_step, pyOrEmptyStrip]
    rcases h with h | h <;> rw [h]
    simp
  · intro cell rest h
    simp only [fetch_rows_outcomes]
    rw [h]
    cases hrec : fetch_rows_outcomes rest <;> simp [Except.map, hrec]

/-- Witness for C5 (amended): a link without a query produces `None`, and a
record whose link has a blank `id` value is skipped while the rest of the
loop proceeds unchanged. -/
theorem c5_recording_id_extraction_witness :
    recording_id_from_link (.pystr "https://example.com/play") = none ∧
    fetch_rows_outcomes
        [.pystr "https://example.com/play?id=+", .pystr "x?id=a"]
      = (fetch_rows_outcomes [.pystr "x?id=a"]).map
          (fun os => RowOutcome.skippedNoId :: os) :=
  ⟨c5_recording_id_extraction.2.2.2.2.2.1 "https://example.com/play" (by decide),
   c5_recording_id_extraction.2.2.2.2.2.2.2.2.2
     (.pystr "https://example.com/play?id=+") [.pystr "x?id=a"] rfl⟩

/-! ## Claim C6: locator payload shapes -/

/-- Claim C6 counterexample: the payload `" "` is a non-empty string, yet the
locator returns `None` rather than that string stripped — the claim's
"non-empty string" case does not match the code, which requires a string
with a truthy strip. -/
theorem c6_counterexample :
    get_recording_public_url
        (fun _ => .ok ⟨200, some (.obj [("data", .str " ")])⟩) = none ∧
    (" " : String) ≠ "" :=
  ⟨rfl, by decide⟩

/-- Claim C6 (amended): the locator returns a URL exactly when the envelope's
`data` payload is a string whose strip is non-empty (returned stripped) or an
object whose `url` field is present and truthy and is a string (that field
returned stripped); every other payload shape — including whitespace-only
strings and objects whose truthy `url` is not a string, where the attempted
`.strip()` raises and is caught — yields `None`. -/
theorem c6_locator_payload_shapes :
    (∀ (fields : List (String × PyJson)) (s : String),
        jGet fields "data" = some (.str s) → pyStrip s ≠ "" →
        extract_public_link (.obj fields) = some (pyStrip s)) ∧
    (∀ (fields : List (String × PyJson)) (s : String),
        jGet fields "data" = some (.str s) → pyStrip s = "" →
        extract_public_link (.obj fields) = none) ∧
    (∀ (fields d : List (String × PyJson)) (u : String),
        jGet fields "data" = some (.obj d) → jGet d "url" = some (.str u) →
        u ≠ "" → extract_public_link (.obj fields) = some (pyStrip u)) ∧
    (∀ (fields d : List (String × PyJson)) (v : PyJson),
        jGet fields "data" = some (.obj d) → jGet d "url" = some v →
        v.truthy = true → (∀ u : String, v ≠ .str u) →
        extract_public_link (.obj fields) = none) ∧
    (∀ (fields d : List (String × PyJson)) (v : PyJson),
        jGet fields "data" = some (.obj d) → jGet d "url" = some v →
        v.truthy = false → extract_public_link (.obj fields) = none) ∧
    (∀ (fields d : List (String × PyJson)),
        jGet fields "data" = some (.obj d) → jGet d "url" = none →
        extract_public_link (.obj fields) = none) ∧
    (∀ fields : List (String × PyJson),
        jGet fields "data" = none → extract_public_link (.obj fields) = none) ∧
    (∀ (fields : List (String × PyJson)) (j : PyJson),
        jGet fields "data" = some j → (∀ s : String, j ≠ .str s) →
        (∀ d : List (String × PyJson), j ≠ .obj d) →
        extract_public_link (.obj fields) = none) ∧
    (∀ j : PyJson,
        get_recording_public_url (fun _ => .ok ⟨200, some j⟩)
          = extract_public_link j) := by
  refine ⟨?_, ?_, ?_, ?_, ?_, ?_, ?_, ?_, ?_⟩
  · intro fields s h1 h2
    simp only [extract_public_link]
    rw [h1]
    simp [h2]
  · intro fields s h1 h2
    simp only [extract_public_link]
    rw [h1]
    simp [h2]
  · intro fields d u h1 h2 h3
    simp only [extract_public_link]
    rw [h1]
    simp [h2, PyJson.truthy, h3]
  · intro fields d v h1 h2 h3 h4
    simp only [extract_public_link]
    rw [h1]
    simp only [h2, h3, if_true]
  · intro fields d v h1 h2 h3
    simp only [extract_public_link]
    rw [h1]
    simp [h2, h3]
  · intro fields d h1 h2
    simp only [extract_public_link]
    rw [h1]
    simp [h2]
  · intro fields h1
    simp only [extract_public_link]
    rw [h1]
  · intro fields j h1 hs hd
    simp only [extract_public_link]
    rw [h1]
    cases j with
    | str u => exact absurd rfl (hs u)
    | obj l => exact absurd rfl (hd l)
    | null => rfl
    | boolean b => rfl
    | num q => rfl
    | arr l => rfl
  · intro j
    simp [get_recording_public_url, httpRaises]

/-- Witness for C6 (amended): a padded URL-string payload is returned
stripped; an object payload with a numeric truthy `url` yields `None`. -/
theorem c6_locator_payload_shapes_witness :
    extract_public_link (.obj [("data", .str " http://a ")]) = some (pyStrip " http://a ") ∧
    extract_public_link (.obj [("data", .obj [("url", .num 1)])]) = none :=
  ⟨c6_locator_payload_shapes.1 [("data", .str " http://a ")] " http://a " rfl (by decide),
   c6_locator_payload_shapes.2.2.2.1 [("data", .obj [("url", .num 1)])] [("url", .num 1)]
     (.num 1) rfl rfl (by decide) (fun u h => by cases h)⟩

/-! ## Claim C10: talk-time conversion and the strict filter -/

/-- Claim C10: the talk-time conversion is total on the modelled cell shapes:
`H:M:S` with integer parts gives `H*3600 + M*60 + S`, `M:S` gives
`M*60 + S`, a bare decimal numeral gives its value, and `None`, `NaN`,
blank, or unparsable values give `0`; consequently, for any non-negative
threshold, cells whose value converts to `0` are excluded by the strict
greater-than talk-time filter. -/
theorem c10_talk_time_parsing :
    (talk_time_duration_to_seconds .pynone = 0) ∧
    (talk_time_duration_to_seconds .pynan = 0) ∧
    (∀ s : String, pyStripList s.data = [] →
        talk_time_duration_to_seconds (.pystr s) = 0) ∧
    (∀ (s : String) (p1 p2 p3 : List Char) (h m sec : Int),
        splitOnChar ':' (pyStripList s.data) = [p1, p2, p3] →
        pyInt (String.mk p1) = some h → pyInt (String.mk p2) = some m →
        pyInt (String.mk p3) = some sec →
        talk_time_duration_to_seconds (.pystr s)
          = (h : ℚ) * 3600 + (m : ℚ) * 60 + (sec : ℚ)) ∧
    (∀ (s : String) (p1 p2 p3 : List Char),
        splitOnChar ':' (pyStripList s.data) = [p1, p2, p3] →
        (pyInt (String.mk p1) = none ∨ pyInt (String.mk p2) = none ∨
          pyInt (String.mk p3) = none) →
        talk_time_duration_to_seconds (.pystr s) = 0) ∧
    (∀ (s : String) (p1 p2 : List Char) (m sec : Int),
        splitOnChar ':' (pyStripList s.data) = [p1, p2] →
        pyInt (String.mk p1) = some m → pyInt (String.mk p2) = some sec →
        talk_time_duration_to_seconds (.pystr s) = (m : ℚ) * 60 + (sec : ℚ)) ∧
    (∀ (s : String) (p1 p2 : List Char),
        splitOnChar ':' (pyStripList s.data) = [p1, p2] →
        (pyInt (String.mk p1) = none ∨ pyInt (String.mk p2) = none) →
        talk_time_duration_to_seconds (.pystr s) = 0) ∧
    (∀ (s : String) (q : ℚ),
        (splitOnChar ':' (pyStripList s.data)).length ≠ 2 →
        (splitOnChar ':' (pyStripList s.data)).length ≠ 3 →
        pyStripList s.data ≠ [] →
        pyFloat (String.mk (pyStripList s.data)) = some q →
        talk_time_duration_to_seconds (.pystr s) = q) ∧
    (∀ s : String,
        (splitOnChar ':' (pyStripList s.data)).length ≠ 2 →
        (splitOnChar ':' (pyStripList s.data)).length ≠ 3 →
        pyFloat (String.mk (pyStripList s.data)) = none →
        talk_time_duration_to_seconds (.pystr s) = 0) ∧
    (∀ (rows : List PyCell) (t : ℚ) (v : PyCell), 0 ≤ t →
        talk_time_duration_to_seconds v = 0 → v ∉ filterByTalkTime rows t) := by
  have hne : ∀ (s : String) (parts : List (List Char)), 2 ≤ parts.length →
      splitOnChar ':' (pyStripList s.data) = parts → pyStripList s.data ≠ [] := by
    intro s parts hlen hsplit h0
    rw [h0] at hsplit
    simp only [splitOnChar] at hsplit
    subst hsplit
    simp at hlen
  refine ⟨rfl, rfl, ?_, ?_, ?_, ?_, ?_, ?_, ?_, ?_⟩
  · intro s h
    simp [talk_time_duration_to_seconds, talkStr, h]
  · intro s p1 p2 p3 h m sec hsplit hp1 hp2 hp3
    have h0 := hne s [p1, p2, p3] (by simp) hsplit
    simp only [talk_time_duration_to_seconds, talkStr]
    rw [if_neg h0, hsplit]
    simp only [hp1, hp2, hp3]
  · intro s p1 p2 p3 hsplit hbad
    have h0 := hne s [p1, p2, p3] (by simp) hsplit
    simp only [talk_time_duration_to_seconds, talkStr]
    rw [if_neg h0, hsplit]
    cases hA : pyInt (String.mk p1) <;> cases hB : pyInt (String.mk p2) <;>
      cases hC : pyInt (String.mk p3) <;> simp_all
  · intro s p1 p2 m sec hsplit hp1 hp2
    have h0 := hne s [p1, p2] (by simp) hsplit
    simp only [talk_time_duration_to_seconds, talkStr]
    rw [if_neg h0, hsplit]
    simp only [hp1, hp2]
  · intro s p1 p2 hsplit hbad
    have h0 := hne s [p1, p2] (by simp) hsplit
    simp only [talk_time_duration_to_seconds, talkStr]
    rw [if_neg h0, hsplit]
    cases hA : pyInt (String.mk p1) <;> cases hB : pyInt (String.mk p2) <;> simp_all
  · intro s q h2 h3 h0 hq
    simp only [talk_time_duration_to_seconds, talkStr]
    rw [if_neg h0]
    rcases hsp : splitOnChar ':' (pyStripList s.data) with _ | ⟨a, _ | ⟨b, _ | ⟨c, tl⟩⟩⟩
    · simp only [hq]
    · simp only [hq]
    · rw [hsp] at h2; simp at h2
    · cases tl with
      | nil => rw [hsp] at h3; simp at h3
      | cons d tl2 => simp only [hq]
  · intro s h2 h3 hq
    simp only [talk_time_duration_to_seconds, talkStr]
    by_cases h0 : pyStripList s.data = []
    · rw [if_pos h0]
    · rw [if_neg h0]
      rcases hsp : splitOnChar ':' (pyStripList s.data) with _ | ⟨a, _ | ⟨b, _ | ⟨c, tl⟩⟩⟩
      · simp only [hq]
      · simp only [hq]
      · rw [hsp] at h2; simp at h2
      · cases tl with
        | nil => rw [hsp] at h3; simp at h3
        | cons d tl2 => simp only [hq]
  · intro rows t v ht hv hmem
    rw [filterByTalkTime, List.mem_filter] at hmem
    have := of_decide_eq_true hmem.2
    rw [hv] at this
    exact absurd this (not_lt.mpr ht)

/-- Witness for C10: the string `0:01:08` converts through the three-part
branch, and an unparsable string is excluded by the filter for threshold 10. -/
theorem c10_talk_time_parsing_witness :
    talk_time_duration_to_seconds (.pystr "0:01:08")
      = ((0 : Int) : ℚ) * 3600 + ((1 : Int) : ℚ) * 60 + ((8 : Int) : ℚ) ∧
    PyCell.pystr "abc" ∉ filterByTalkTime [.pystr "abc", .pystr "0:01:08"] 10 :=
  ⟨c10_talk_time_parsing.2.2.2.1 "0:01:08" ['0'] ['0', '1'] ['0', '8'] 0 1 8
     (by decide) (by decide) (by decide) (by decide),
   c10_talk_time_parsing.2.2.2.2.2.2.2.2.2 [.pystr "abc", .pystr "0:01:08"] 10
     (.pystr "abc") (by norm_num) (by decide)⟩

/-! ## Claim C8: reconciler output layout (modelled from the spec) -/

theorem txtName_ne_origName (a b : OutName) : txtName a ≠ origName b := by
  intro h
  have h2 : ("txt" : String) = "json" := congrArg OutName.ext h
  exact absurd h2 (by decide)

theorem txtName_ne_canonName (a b : OutName) : txtName a ≠ canonName b := by
  intro h
  have h2 : ("txt" : String) = "json" := congrArg OutName.ext h
  exact absurd h2 (by decide)

theorem origName_eq_canonName_iff (a b : OutName) :
    origName a = canonName b ↔ fullName a = b.base := by
  constructor
  · intro h
    exact congrArg OutName.base h
  · intro h
    simp [origName, canonName, h]

theorem origName_eq_origName_iff (a b : OutName) :
    origName a = origName b ↔ fullName a = fullName b := by
  constructor
  · intro h
    exact congrArg OutName.base h
  · intro h
    simp [origName, h]

theorem fsWrite_eq (fs : FS) (n : OutName) (c : String) : fsWrite fs n c n = some c := by
  simp [fsWrite]

theorem fsWrite_ne (fs : FS) (n : OutName) (c : String) (m : OutName) (h : m ≠ n) :
    fsWrite fs n c m = fs m := by
  simp [fsWrite, h]

theorem fsRemove_eq (fs : FS) (n : OutName) : fsRemove fs n n = none := by
  simp [fsRemove]

theorem fsRemove_ne (fs : FS) (n m : OutName) (h : m ≠ n) : fsRemove fs n m = fs m := by
  simp [fsRemove, h]

theorem reconcile_char (ex : String → String) :
    ∀ (arts : List OutName) (fs : FS),
      List.Pairwise (fun a b => fullName a ≠ fullName b) arts →
      (∀ a ∈ arts, ∀ b ∈ arts, a.base ≠ fullName b) →
      ∀ n : OutName,
        (reconcile ex arts fs n).isSome = true ↔
          ((∃ a ∈ arts, (fs (origName a)).isSome = true ∧
              (n = txtName a ∨ n = canonName a)) ∨
            ((fs n).isSome = true ∧ ∀ a ∈ arts, n ≠ origName a)) := by
  intro arts
  induction arts with
  | nil =>
    intro fs _ _ n
    simp [reconcile]
  | cons a rest ih =>
    intro fs hff hbf n
    have hffc := List.pairwise_cons.mp hff
    have hbf_rest : ∀ x ∈ rest, ∀ b ∈ rest, x.base ≠ fullName b := fun x hx b hb2 =>
      hbf x (List.mem_cons_of_mem a hx) b (List.mem_cons_of_mem a hb2)
    have hbf_aa : a.base ≠ fullName a :=
      hbf a (List.mem_cons_self a rest) a (List.mem_cons_self a rest)
    have hoc : origName a ≠ canonName a := fun h =>
      hbf_aa (((origName_eq_canonName_iff a a).mp h).symm)
    have hrec : reconcile ex (a :: rest) fs = reconcile ex rest (reconcileStep ex fs a) := rfl
    rw [hrec]
    cases hfo : fs (origName a) with
    | none =>
      have hstep : reconcileStep ex fs a = fs := by simp [reconcileStep, hfo]
      rw [hstep, ih fs hffc.2 hbf_rest n]
      constructor
      · rintro (⟨b, hb2, hsome, hout⟩ | ⟨hsome, hne2⟩)
        · exact Or.inl ⟨b, List.mem_cons_of_mem a hb2, hsome, hout⟩
        · refine Or.inr ⟨hsome, ?_⟩
          intro x hx
          rcases List.mem_cons.mp hx with rfl | hx2
          · intro hna
            rw [hna, hfo] at hsome
            cases hsome
          · exact hne2 x hx2
      · rintro (⟨b, hb2, hsome, hout⟩ | ⟨hsome, hne2⟩)
        · rcases List.mem_cons.mp hb2 with rfl | hb2
          · rw [hfo] at hsome
            cases hsome
          · exact Or.inl ⟨b, hb2, hsome, hout⟩
        · exact Or.inr ⟨hsome, fun x hx => hne2 x (List.mem_cons_of_mem a hx)⟩
    | some payload =>
      have hstep : reconcileStep ex fs a
          = fsRemove (fsWrite (fsWrite fs (txtName a) (ex payload)) (canonName a) payload)
              (origName a) := by
        simp [reconcileStep, hfo, hoc]
      rw [hstep]
      set fs2 := fsRemove (fsWrite (fsWrite fs (txtName a) (ex payload)) (canonName a) payload)
        (origName a) with hfs2
      have hfs2_at : ∀ m : OutName, m ≠ origName a → m ≠ canonName a → m ≠ txtName a →
          fs2 m = fs m := by
        intro m hm1 hm2 hm3
        rw [hfs2, fsRemove_ne _ _ _ hm1, fsWrite_ne _ _ _ _ hm2, fsWrite_ne _ _ _ _ hm3]
      have horig_rest : ∀ b ∈ rest, fs2 (origName b) = fs (origName b) := by
        intro b hb2
        apply hfs2_at
        · exact fun h => hffc.1 b hb2 (((origName_eq_origName_iff b a).mp h).symm)
        · exact fun h => hbf a (List.mem_cons_self a rest) b (List.mem_cons_of_mem a hb2)
            (((origName_eq_canonName_iff b a).mp h).symm)
        · exact fun h => txtName_ne_origName a b h.symm
      rw [ih fs2 hffc.2 hbf_rest n]
      by_cases h1 : n = txtName a
      · subst h1
        have hL : (fs2 (txtName a)).isSome = true := by
          rw [hfs2, fsRemove_ne _ _ _ (txtName_ne_origName a a),
            fsWrite_ne _ _ _ _ (txtName_ne_canonName a a), fsWrite_eq]
          rfl
        constructor
        · intro _
          exact Or.inl ⟨a, List.mem_cons_self a rest, by rw [hfo]; rfl, Or.inl rfl⟩
        · intro _
          exact Or.inr ⟨hL, fun b hb2 h => txtName_ne_origName a b h⟩
      · by_cases h2 : n = canonName a
        · subst h2
          have hL : (fs2 (canonName a)).isSome = true := by
            rw [hfs2, fsRemove_ne _ _ _ (fun h => hoc h.symm), fsWrite_eq]
            rfl
          constructor
          · intro _
            exact Or.inl ⟨a, List.mem_cons_self a rest, by rw [hfo]; rfl, Or.inr rfl⟩
          · intro _
            refine Or.inr ⟨hL, ?_⟩
            intro b hb2 h
            exact hbf a (List.mem_cons_self a rest) b (List.mem_cons_of_mem a hb2)
              (((origName_eq_canonName_iff b a).mp h.symm).symm)
        · by_cases h3 : n = origName a
          · subst h3
            have hL : fs2 (origName a) = none := by rw [hfs2, fsRemove_eq]
            constructor
            · rintro (⟨b, hb2, hsome, hout⟩ | ⟨hsome, hne2⟩)
              · rcases hout with hout | hout
                · exact absurd hout.symm (txtName_ne_origName b a)
                · exact absurd (((origName_eq_canonName_iff a b).mp hout).symm)
                    (hbf b (List.mem_cons_of_mem a hb2) a (List.mem_cons_self a rest))
              · rw [hL] at hsome
                cases hsome
            · rintro (⟨b, hb2, hsome, hout⟩ | ⟨hsome, hne2⟩)
              · rcases List.mem_cons.mp hb2 with rfl | hb2
                · rcases hout with hout | hout
                  · exact absurd hout.symm (txtName_ne_origName b b)
                  · exact absurd hout hoc
                · rcases hout with hout | hout
                  · exact absurd hout.symm (txtName_ne_origName b a)
                  · exact absurd (((origName_eq_canonName_iff a b).mp hout).symm)
                      (hbf b (List.mem_cons_of_mem a hb2) a (List.mem_cons_self a rest))
              · exact absurd rfl (hne2 a (List.mem_cons_self a rest))
          · have hgen : fs2 n = fs n := hfs2_at n h3 h2 h1
            constructor
            · rintro (⟨b, hb2, hsome, hout⟩ | ⟨hsome, hne2⟩)
              · rw [horig_rest b hb2] at hsome
                exact Or.inl ⟨b, List.mem_cons_of_mem a hb2, hsome, hout⟩
              · rw [hgen] at hsome
                refine Or.inr ⟨hsome, ?_⟩
                intro x hx
                rcases List.mem_cons.mp hx with rfl | hx2
                · exact h3
                · exact hne2 x hx2
            · rintro (⟨b, hb2, hsome, hout⟩ | ⟨hsome, hne2⟩)
              · rcases List.mem_cons.mp hb2 with rfl | hb2
                · rcases hout with hout | hout
                  · exact absurd hout h1
                  · exact absurd hout h2
                · rw [← horig_rest b hb2] at hsome
                  exact Or.inl ⟨b, hb2, hsome, hout⟩
              · rw [← hgen] at hsome
                exact Or.inr ⟨hsome, fun x hx => hne2 x (List.mem_cons_of_mem a hx)⟩

/-- Claim C8: after reconciliation of a completed run — starting from an
output directory that holds exactly the raw per-member result files — the
output location contains a file exactly when it is `<stem>.txt` or
`<stem>.json` for a successfully transcribed input stem (one whose raw
result file is present), so each such stem owns exactly its pair and no
intermediate result file survives. Hypotheses: artifact full names are
pairwise distinct and no stem equals an artifact full file name (audio
artifacts carry extensions). -/
theorem c8_reconciler_layout (ex : String → String) (arts : List OutName) (fs : FS)
    (hff : List.Pairwise (fun a b => fullName a ≠ fullName b) arts)
    (hbf : ∀ a ∈ arts, ∀ b ∈ arts, a.base ≠ fullName b)
    (h0 : ∀ n : OutName, (fs n).isSome = true → ∃ a ∈ arts, n = origName a) :
    ∀ n : OutName,
      (reconcile ex arts fs n).isSome = true ↔
        ∃ a ∈ arts, (fs (origName a)).isSome = true ∧
          (n = txtName a ∨ n = canonName a) := by
  intro n
  rw [reconcile_char ex arts fs hff hbf n]
  constructor
  · rintro (h | ⟨hsome, hne2⟩)
    · exact h
    · obtain ⟨a, ha, hn⟩ := h0 n hsome
      exact absurd hn (hne2 a ha)
  · exact Or.inl

/-- Witness for C8: with artifacts `A.mp3` (result present) and `B.mp3` (no
result), the reconciled directory contains `A.txt`. -/
theorem c8_reconciler_layout_witness :
    (reconcile (fun _ => "transcript") [⟨"A", "mp3"⟩, ⟨"B", "mp3"⟩]
        (fun n => if n = origName ⟨"A", "mp3"⟩ then some "payload" else none)
        (txtName ⟨"A", "mp3"⟩)).isSome = true :=
  (c8_reconciler_layout (fun _ => "transcript") [⟨"A", "mp3"⟩, ⟨"B", "mp3"⟩]
      (fun n => if n = origName ⟨"A", "mp3"⟩ then some "payload" else none)
      (List.Pairwise.cons (by decide) (List.Pairwise.cons (by decide) List.Pairwise.nil))
      (by decide)
      (by
        intro n h
        by_cases hn : n = origName ⟨"A", "mp3"⟩
        · exact ⟨⟨"A", "mp3"⟩, List.mem_cons_self _ _, hn⟩
        · simp [hn] at h)
      (txtName ⟨"A", "mp3"⟩)).mpr
    ⟨⟨"A", "mp3"⟩, List.mem_cons_self _ _, by decide, Or.inl rfl⟩

end FeatureMart



